import Mathlib

/- Shallow embedding of the mock IBM MQ components of the K6-Perf repository:
   the MockMQServer queue engine (src/unnamed/part_003), the MQMessageHandler
   stub matcher (src/mountebank/lib/mq/mqMessageHandler.js) and the MQConfig
   imposter-configuration validator (src/unnamed/part_004).  JavaScript Maps
   and objects are modelled as insertion-ordered association lists; machine
   effects (Date.now, new Date, Math.random, the regular-expression engine,
   file I/O) are passed in explicitly as parameters. -/

/-- JavaScript `x || d` for an optional string field: the default is used when
the field is absent (undefined) or the empty string (both falsy). -/
def jsOrStr (v : Option String) (d : String) : String :=
  match v with
  | none => d
  | some s => if s = "" then d else s

/-- JavaScript `x || d` for an optional natural-number field: the default is
used when the field is absent or zero (both falsy). -/
def jsOrNat (v : Option Nat) (d : Nat) : Nat :=
  match v with
  | none => d
  | some n => if n = 0 then d else n

/-- JavaScript `x || d` for an optional integer field. -/
def jsOrInt (v : Option Int) (d : Int) : Int :=
  match v with
  | none => d
  | some n => if n = 0 then d else n

/-- The JavaScript `String(n).padStart(8, '0')` used by the id generators. -/
def padStart8 (s : String) : String :=
  if 8 ≤ s.length then s else String.mk (List.replicate (8 - s.length) '0') ++ s

/-- Lookup in a JavaScript `Map` (or plain object) modelled as an
insertion-ordered association list: `map.get(k)`. -/
def mapGet {α : Type} (m : List (String × α)) (k : String) : Option α :=
  match m with
  | [] => none
  | (k', v) :: rest => if k' = k then some v else mapGet rest k

/-- Update in a JavaScript `Map`: `map.set(k, v)` replaces an existing entry
in place and otherwise appends, preserving insertion order. -/
def mapSet {α : Type} (m : List (String × α)) (k : String) (v : α) :
    List (String × α) :=
  match m with
  | [] => [(k, v)]
  | (k', v') :: rest => if k' = k then (k', v) :: rest else (k', v') :: mapSet rest k v

/-- JavaScript `map.has(k)`. -/
def mapHas {α : Type} (m : List (String × α)) (k : String) : Bool :=
  (mapGet m k).isSome

/-- JavaScript `map.delete(k)` (the entry removed, if present). -/
def mapDelete {α : Type} (m : List (String × α)) (k : String) : List (String × α) :=
  match m with
  | [] => []
  | (k', v') :: rest => if k' = k then rest else (k', v') :: mapDelete rest k

/-- JavaScript `new Map(entries)`: entries are inserted in order with `set`
semantics (a duplicate key keeps its first position but takes the last value). -/
def mapFromEntries {α : Type} (entries : List (String × α)) : List (String × α) :=
  entries.foldl (fun m kv => mapSet m kv.1 kv.2) []

namespace MockMQ

/-- The clock values a JavaScript call site observes: `Date.now()` (epoch
milliseconds) and `new Date().toISOString()`. -/
structure JsDate where
  ms : Nat
  iso : String
deriving DecidableEq

/-- A queued message, as built by `MockMQServer.putMessage`.  The payload is
kept opaque as a string. -/
structure Message where
  messageId : String
  correlationId : String
  data : String
  putTime : String
  priority : Nat
  persistence : Nat
  format : String
  messageType : Nat
  replyToQueue : String
  expiry : Int
  putApplicationName : String
deriving DecidableEq

/-- A queue record as stored in `this.queues` by `MockMQServer.createQueue`. -/
structure MQQueue where
  name : String
  messages : List Message
  maxDepth : Nat
  description : String
  created : String
  openInputCount : Nat
  openOutputCount : Nat
  totalMessagesIn : Nat
  totalMessagesOut : Nat
deriving DecidableEq

/-- The state of a `MockMQServer` instance (the `connections` map is omitted:
no claim concerns connections and no queue operation touches it). -/
structure MockMQServer where
  queues : List (String × MQQueue)
  messageId : Nat
  correlationId : Nat
  isRunning : Bool
  queueManager : String
deriving DecidableEq

/-- Errors thrown by the queue operations. -/
inductive MQError where
  | queueNotFound (queueName : String)
  | queueFull (queueName : String) (maxDepth : Nat)
deriving DecidableEq

/-- The `options` argument of `putMessage`. -/
structure PutOptions where
  correlationId : Option String := none
  priority : Option Nat := none
  persistence : Option Nat := none
  format : Option String := none
  messageType : Option Nat := none
  replyToQueue : Option String := none
  expiry : Option Int := none
  putApplicationName : Option String := none
deriving DecidableEq

/-- The `options` argument of `getMessage`. -/
structure GetOptions where
  browse : Bool := false
deriving DecidableEq

/-- The `options` argument of `createQueue`. -/
structure CreateOptions where
  maxDepth : Option Nat := none
  description : Option String := none
deriving DecidableEq

/-- `generateMessageId`, reading and post-incrementing `this.messageId`
(the increment is performed by the caller). -/
def generateMessageId (messageId : Nat) (nowMs : Nat) : String :=
  "MSG-" ++ padStart8 (toString messageId) ++ "-" ++ toString nowMs

/-- `generateCorrelationId`, reading `this.correlationId`. -/
def generateCorrelationId (correlationId : Nat) (nowMs : Nat) : String :=
  "CORR-" ++ padStart8 (toString correlationId) ++ "-" ++ toString nowMs

/-- `MockMQServer.createQueue`: registers a fresh queue unless the name is
already taken; returns whether the queue was created. -/
def createQueue (s : MockMQServer) (queueName : String) (options : CreateOptions)
    (now : JsDate) : Bool × MockMQServer :=
  if mapHas s.queues queueName then (false, s)
  else
    (true,
     { s with
       queues := mapSet s.queues queueName
         { name := queueName
           messages := []
           maxDepth := jsOrNat options.maxDepth 5000
           description := jsOrStr options.description ""
           created := now.iso
           openInputCount := 0
           openOutputCount := 0
           totalMessagesIn := 0
           totalMessagesOut := 0 } })

/-- `MockMQServer.deleteQueue`: `this.queues.delete(queueName)`. -/
def deleteQueue (s : MockMQServer) (queueName : String) : Bool × MockMQServer :=
  (mapHas s.queues queueName, { s with queues := mapDelete s.queues queueName })

/-- The expression `options.correlationId || this.generateCorrelationId()` of
`putMessage`: the generator (which post-increments `this.correlationId`) runs
only when the supplied correlation id is absent or empty (falsy). -/
def resolveCorrelationId (options : PutOptions) (s1 : MockMQServer) (nowMs : Nat) :
    String × MockMQServer :=
  match options.correlationId with
  | some c =>
    if c = "" then
      (generateCorrelationId s1.correlationId nowMs,
       { s1 with correlationId := s1.correlationId + 1 })
    else (c, s1)
  | none =>
    (generateCorrelationId s1.correlationId nowMs,
     { s1 with correlationId := s1.correlationId + 1 })

/-- `MockMQServer.putMessage`.  Throws when the queue is absent or already at
(or past) `maxDepth`; otherwise builds the message, appends it to the tail and
increments `totalMessagesIn`.  (The auto-save to disk performed by the source
does not change the in-memory state and is modelled by `savePersistentData`
separately.)  The state is returned alongside the result because a JavaScript
throw leaves the mutated object visible to the caller; here every throw
happens before any mutation. -/
def putMessage (s : MockMQServer) (queueName : String) (messageData : String)
    (options : PutOptions) (now : JsDate) : Except MQError Message × MockMQServer :=
  match mapGet s.queues queueName with
  | none => (.error (.queueNotFound queueName), s)
  | some queue =>
    if queue.messages.length ≥ queue.maxDepth then
      (.error (.queueFull queueName queue.maxDepth), s)
    else
      let msgId := generateMessageId s.messageId now.ms
      let s1 : MockMQServer := { s with messageId := s.messageId + 1 }
      let corr : String × MockMQServer := resolveCorrelationId options s1 now.ms
      let message : Message :=
        { messageId := msgId
          correlationId := corr.1
          data := messageData
          putTime := now.iso
          priority := jsOrNat options.priority 0
          persistence := jsOrNat options.persistence 1
          format := jsOrStr options.format "MQSTR"
          messageType := jsOrNat options.messageType 8
          replyToQueue := jsOrStr options.replyToQueue ""
          expiry := jsOrInt options.expiry (-1)
          putApplicationName := jsOrStr options.putApplicationName "MockMQServer" }
      let queue' : MQQueue :=
        { queue with
          messages := queue.messages ++ [message]
          totalMessagesIn := queue.totalMessagesIn + 1 }
      (.ok message, { corr.2 with queues := mapSet corr.2.queues queueName queue' })

/-- `MockMQServer.getMessage`.  Returns `null` on an empty queue; in browse
mode returns the head without removing it; otherwise shifts the head and
increments `totalMessagesOut`. -/
def getMessage (s : MockMQServer) (queueName : String) (options : GetOptions) :
    Except MQError (Option Message) × MockMQServer :=
  match mapGet s.queues queueName with
  | none => (.error (.queueNotFound queueName), s)
  | some queue =>
    match queue.messages with
    | [] => (.ok none, s)
    | m :: rest =>
      if options.browse then (.ok (some m), s)
      else
        let queue' : MQQueue :=
          { queue with messages := rest, totalMessagesOut := queue.totalMessagesOut + 1 }
        (.ok (some m), { s with queues := mapSet s.queues queueName queue' })

/-- The record returned by `MockMQServer.getQueueDepth`. -/
structure DepthInfo where
  queueName : String
  currentDepth : Nat
  maxDepth : Nat
  openInputCount : Nat
  openOutputCount : Nat
  totalMessagesIn : Nat
  totalMessagesOut : Nat
deriving DecidableEq

/-- `MockMQServer.getQueueDepth`. -/
def getQueueDepth (s : MockMQServer) (queueName : String) : Except MQError DepthInfo :=
  match mapGet s.queues queueName with
  | none => .error (.queueNotFound queueName)
  | some queue =>
    .ok { queueName := queueName
          currentDepth := queue.messages.length
          maxDepth := queue.maxDepth
          openInputCount := queue.openInputCount
          openOutputCount := queue.openOutputCount
          totalMessagesIn := queue.totalMessagesIn
          totalMessagesOut := queue.totalMessagesOut }

/-- `MockMQServer.clearQueue`: empties the message list, returning the number
of removed messages; no counter is touched. -/
def clearQueue (s : MockMQServer) (queueName : String) :
    Except MQError Nat × MockMQServer :=
  match mapGet s.queues queueName with
  | none => (.error (.queueNotFound queueName), s)
  | some queue =>
    let clearedCount := queue.messages.length
    (.ok clearedCount,
     { s with queues := mapSet s.queues queueName { queue with messages := [] } })

/-- The JSON document written by `savePersistentData`:
`{queues: Array.from(this.queues.entries()), messageId, correlationId, lastSaved}`. -/
structure PersistedData where
  queues : List (String × MQQueue)
  messageId : Nat
  correlationId : Nat
  lastSaved : String
deriving DecidableEq

/-- `MockMQServer.savePersistentData`: the state file contents produced on a
successful write (write failures are caught and logged in the source and leave
the in-memory state untouched either way). -/
def savePersistentData (s : MockMQServer) (now : JsDate) : PersistedData :=
  { queues := s.queues
    messageId := s.messageId
    correlationId := s.correlationId
    lastSaved := now.iso }

/-- `MockMQServer.loadPersistentData`: `none` models a state file that is
absent or fails to parse (the catch branch), in which case nothing changes;
otherwise the queue map is wholly replaced by `new Map(data.queues)` and the
counters by `data.messageId || 1` and `data.correlationId || 1`. -/
def loadPersistentData (s : MockMQServer) (file : Option PersistedData) : MockMQServer :=
  match file with
  | none => s
  | some data =>
    { s with
      queues := mapFromEntries data.queues
      messageId := if data.messageId = 0 then 1 else data.messageId
      correlationId := if data.correlationId = 0 then 1 else data.correlationId }

/-- The queue names created by `initializeDefaultQueues`. -/
def defaultQueueNames : List String :=
  ["DEV.QUEUE.1", "DEV.QUEUE.RESPONSE", "TEST.REQUEST.QUEUE",
   "TEST.RESPONSE.QUEUE", "DEV.QUEUE.ERROR"]

/-- `MockMQServer.initializeDefaultQueues`. -/
def initializeDefaultQueues (s : MockMQServer) (now : JsDate) : MockMQServer :=
  defaultQueueNames.foldl
    (fun acc queueName =>
      (createQueue acc queueName
        { maxDepth := some 10000
          description := some ("Mock queue: " ++ queueName) } now).2)
    s

/-- The `MockMQServer` constructor: fresh state, then default queues, then
`loadPersistentData` (which, on a successful load, replaces the queue map). -/
def mkMockMQServer (file : Option PersistedData) (now : JsDate) : MockMQServer :=
  loadPersistentData
    (initializeDefaultQueues
      { queues := []
        messageId := 1
        correlationId := 1
        isRunning := false
        queueManager := "MOCK_QM1" } now)
    file

/-- A sequence of `putMessage` calls against one queue, with no other
operation interleaved. -/
def putSeq (s : MockMQServer) (queueName : String)
    (inputs : List (String × PutOptions × JsDate)) :
    List (Except MQError Message) × MockMQServer :=
  match inputs with
  | [] => ([], s)
  | (messageData, options, now) :: rest =>
    let r := putMessage s queueName messageData options now
    let rs := putSeq r.2 queueName rest
    (r.1 :: rs.1, rs.2)

/-- A sequence of `n` non-browse `getMessage` calls against one queue, with no
other operation interleaved. -/
def getSeq (s : MockMQServer) (queueName : String) (n : Nat) :
    List (Except MQError (Option Message)) × MockMQServer :=
  match n with
  | 0 => ([], s)
  | n + 1 =>
    let r := getMessage s queueName { browse := false }
    let rs := getSeq r.2 queueName n
    (r.1 :: rs.1, rs.2)

/-- Every queue in the store respects its capacity bound
(`len(messages) <= maxDepth`). -/
def depthInvariant (s : MockMQServer) : Prop :=
  ∀ kv ∈ s.queues, (kv.2 : MQQueue).messages.length ≤ kv.2.maxDepth

instance (s : MockMQServer) : Decidable (depthInvariant s) := by
  unfold depthInvariant; infer_instance

end MockMQ

/-- An untyped JavaScript value, as manipulated by the message handler. -/
inductive JsValue where
  | null
  | undefined
  | str (s : String)
  | num (n : Int)
  | bool (b : Bool)
  | obj (fields : List (String × JsValue))
  | arr (items : List JsValue)

/-- JavaScript truthiness:  `undefined`, `null`, `''`, `0` and `false` are
falsy; every object and array is truthy. -/
def jsTruthy : JsValue → Bool
  | .null => false
  | .undefined => false
  | .str s => s ≠ ""
  | .num n => n ≠ 0
  | .bool b => b
  | .obj _ => true
  | .arr _ => true

/-- JavaScript strict equality `===` restricted to the values compared by the
handler.  Two distinct object or array literals are never identical (reference
comparison), which is the situation for a configured predicate value versus a
request field. -/
def jsStrictEq : JsValue → JsValue → Bool
  | .null, .null => true
  | .undefined, .undefined => true
  | .str a, .str b => a = b
  | .num a, .num b => a = b
  | .bool a, .bool b => a = b
  | _, _ => false

/-- JavaScript `v.toString()` for the values the handler coerces (only ever
applied to truthy values in the source; an array is rendered here as the
empty string, whereas JavaScript joins its elements with commas — no
evaluated predicate in this development coerces an array). -/
def jsToString : JsValue → String
  | .null => "null"
  | .undefined => "undefined"
  | .str s => s
  | .num n => toString n
  | .bool b => if b then "true" else "false"
  | .obj _ => "[object Object]"
  | .arr _ => ""

/-- Property read `v[k]` on a JavaScript value: `undefined` when absent or
when the receiver is not a plain object.  (Reads on `null`/`undefined`
throw in JavaScript; the handler only reaches this behind truthiness guards.) -/
def jsGetProp : JsValue → String → JsValue
  | .obj fields, k => (mapGet fields k).getD .undefined
  | _, _ => .undefined

/-- JavaScript `a || b` on values. -/
def jsOrVal (a b : JsValue) : JsValue :=
  if jsTruthy a then a else b

/-- Object spread `{ ...v }`: a shallow copy; spreading a primitive yields an
empty object.  (Array index spreading is not modelled; the handler only
spreads response objects.) -/
def jsSpread : JsValue → JsValue
  | .obj fields => .obj fields
  | _ => .obj []

/-- The JavaScript `field.split('.')`, implemented structurally over the
character list (`"a.b"` gives `["a", "b"]`, `""` gives `[""]`). -/
def splitDotAux : List Char → List Char → List String
  | [], acc => [String.mk acc.reverse]
  | c :: cs, acc =>
    if c = '.' then String.mk acc.reverse :: splitDotAux cs []
    else splitDotAux cs (c :: acc)

/-- `field.split('.')`. -/
def jsSplitDot (s : String) : List String :=
  splitDotAux s.data []

/-- Whether `needle.data` is a prefix of a character list. -/
def charPrefix : List Char → List Char → Bool
  | [], _ => true
  | _ :: _, [] => false
  | a :: as, b :: bs => a = b && charPrefix as bs

/-- Whether the needle occurs anywhere in a character list. -/
def charInfix (needle : List Char) : List Char → Bool
  | [] => charPrefix needle []
  | c :: cs => charPrefix needle (c :: cs) || charInfix needle cs

/-- Whether `needle` occurs in `hay`: JavaScript
`hay.indexOf(needle) !== -1`. -/
def strContains (hay needle : String) : Bool :=
  charInfix needle.data hay.data

namespace MQHandler

/-- The pieces of ambient machine state the handler reads: Date.now(),
new Date().toISOString() and the Math.random() draw of `generateMessageId`. -/
structure JsClock where
  nowMs : Nat
  nowIso : String
  random : Nat
deriving DecidableEq

/-- The module-level environment of `mqMessageHandler.js`: whether the
identifier `Q` is bound in scope, and the semantics of
`new RegExp(pattern).test(s)`.  The module requires only `jsonpath`: it never
requires or defines `Q`, so in the module as shipped `hasQ` is `false` — see
`mkHandlerEnv`. -/
structure HandlerEnv where
  hasQ : Bool
  regexTest : String → String → Bool

/-- The environment `mqMessageHandler.js` actually runs in: `Q` is not bound
(the module has no `require('q')` and no global `Q`), and the regex engine is
abstract. -/
def mkHandlerEnv (regexTest : String → String → Bool) : HandlerEnv :=
  { hasQ := false, regexTest := regexTest }

/-- Runtime errors the handler can raise. -/
inductive JsError where
  | referenceErrorQ
  | typeErrorUndefined
  | typeErrorNotIterable
  | typeErrorNotString
deriving DecidableEq

/-- A stub predicate object, with the four keys the handler dispatches on.
`equals` maps fields to expected values, `contains` and `matches` map fields
to strings, `existsPred` (source key `exists`, a Lean keyword) maps fields to
expected booleans. -/
structure Predicate where
  equals : Option (List (String × JsValue)) := none
  contains : Option (List (String × String)) := none
  matchesRegex : Option (List (String × String)) := none
  existsPred : Option (List (String × Bool)) := none

/-- A configured stub: an optional predicate list and a response list (each
response an untyped JavaScript value). -/
structure Stub where
  predicates : Option (List Predicate) := none
  responses : List JsValue := []

/-- The slice of the imposter configuration the handler reads. -/
structure ImposterConfig where
  stubs : Option (List Stub) := none

/-- The inbound MQ message as seen by `processMessage` (`putTime` is a Date in
the source, modelled by its ISO rendering when present). -/
structure HandlerMessage where
  messageId : String
  correlationId : String
  messageType : Int
  priority : Int
  persistence : Int
  format : String
  putApplicationName : Option String := none
  putTime : Option String := none
  expiry : Int
  data : JsValue
  replyToQueue : Option String := none
  queue : Option String := none

/-- An outbound MQ message built by `createMessageFromResponse` or
`createDefaultResponse`. -/
structure OutMessage where
  messageId : String
  correlationId : String
  replyToQueue : String
  messageType : Int
  persistence : Int
  priority : Int
  expiry : JsValue
  format : JsValue
  data : JsValue
  putTime : String
  putApplicationName : String
  responseHeaders : JsValue

/-- `MQMessageHandler.getFieldValue`: walk a dotted path through plain
objects, returning `null` as soon as a step is missing or the current value is
not an object. -/
def getFieldAux : JsValue → List String → JsValue
  | v, [] => v
  | v, p :: ps =>
    match v with
    | .obj fields =>
      match mapGet fields p with
      | some v' => getFieldAux v' ps
      | none => .null
    | _ => .null

/-- `getFieldValue(request, field)` with `field.split('.')`. -/
def getFieldValue (request : JsValue) (field : String) : JsValue :=
  getFieldAux request (jsSplitDot field)

/-- `MQMessageHandler.setFieldValue`: dotted-path assignment, creating
intermediate objects when a step is missing or not an object.  (A non-object
root cannot occur in the handler: the response has just been spread.) -/
def setFieldAux : List (String × JsValue) → List String → JsValue → List (String × JsValue)
  | fields, [], _ => fields
  | fields, [p], v => mapSet fields p v
  | fields, p :: ps, v =>
    let current : List (String × JsValue) :=
      match mapGet fields p with
      | some (.obj inner) => inner
      | _ => []
    mapSet fields p (.obj (setFieldAux current ps v))

/-- `setFieldValue(response, field, value)`. -/
def setFieldValue (response : JsValue) (field : String) (v : JsValue) : JsValue :=
  match response with
  | .obj fields => .obj (setFieldAux fields (jsSplitDot field) v)
  | other => other

/-- `MQMessageHandler.evaluateEquals`: every listed field must be strictly
equal to its expected value. -/
def evaluateEquals (request : JsValue) (expected : List (String × JsValue)) : Bool :=
  expected.all fun fv => jsStrictEq (getFieldValue request fv.1) fv.2

/-- `MQMessageHandler.evaluateContains`: every listed field must be truthy and
contain the expected substring after string coercion. -/
def evaluateContains (request : JsValue) (expected : List (String × String)) : Bool :=
  expected.all fun fv =>
    let actualValue := getFieldValue request fv.1
    jsTruthy actualValue && strContains (jsToString actualValue) fv.2

/-- `MQMessageHandler.evaluateMatches`: every listed field must be truthy and
match the (freshly constructed) regular expression. -/
def evaluateMatches (env : HandlerEnv) (request : JsValue)
    (expected : List (String × String)) : Bool :=
  expected.all fun fv =>
    let actualValue := getFieldValue request fv.1
    jsTruthy actualValue && env.regexTest fv.2 (jsToString actualValue)

/-- `MQMessageHandler.evaluateExists`: the field's presence
(`!== null && !== undefined`) must equal the expected boolean. -/
def evaluateExists (request : JsValue) (expected : List (String × Bool)) : Bool :=
  expected.all fun fv =>
    let actualValue := getFieldValue request fv.1
    let fieldExists := !jsStrictEq actualValue .null && !jsStrictEq actualValue .undefined
    fv.2 == fieldExists

/-- `MQMessageHandler.evaluatePredicate`.  The very first statement is
`const deferred = Q.defer();`: when `Q` is unbound this raises a
ReferenceError before any predicate logic runs.  Otherwise the four known
keys are dispatched in source order and an object with none of them resolves
`true`. -/
def evaluatePredicate (env : HandlerEnv) (request : JsValue) (predicate : Predicate) :
    Except JsError Bool :=
  if env.hasQ = false then .error .referenceErrorQ
  else
    match predicate.equals with
    | some expected => .ok (evaluateEquals request expected)
    | none =>
      match predicate.contains with
      | some expected => .ok (evaluateContains request expected)
      | none =>
        match predicate.matchesRegex with
        | some expected => .ok (evaluateMatches env request expected)
        | none =>
          match predicate.existsPred with
          | some expected => .ok (evaluateExists request expected)
          | none => .ok true

/-- `MQMessageHandler.matchesPredicate`: vacuously true on a missing or empty
list, otherwise a short-circuit conjunction in list order; a rejected
evaluation propagates. -/
def matchesList (env : HandlerEnv) (request : JsValue) :
    List Predicate → Except JsError Bool
  | [] => .ok true
  | p :: rest =>
    match evaluatePredicate env request p with
    | .error e => .error e
    | .ok false => .ok false
    | .ok true => matchesList env request rest

/-- `matchesPredicate(request, predicates)`. -/
def matchesPredicate (env : HandlerEnv) (request : JsValue)
    (predicates : Option (List Predicate)) : Except JsError Bool :=
  match predicates with
  | none => .ok true
  | some ps => if ps.length = 0 then .ok true else matchesList env request ps

/-- `MQMessageHandler.applyBehavior`: `wait` only delays (no effect on the
value); `copy` copies request fields into the response; `lookup` is a no-op. -/
def applyCopyItem (request : JsValue) (response : JsValue) (copyItem : JsValue) :
    Except JsError JsValue :=
  match jsGetProp copyItem "from" with
  | .str fromField =>
    let sourceValue := getFieldValue request fromField
    if jsStrictEq sourceValue .null then .ok response
    else
      match jsGetProp copyItem "into" with
      | .str intoField => .ok (setFieldValue response intoField sourceValue)
      | _ => .error .typeErrorNotString
  | _ => .error .typeErrorNotString

/-- The `for (const copy of behavior.copy)` loop. -/
def applyCopyList (request : JsValue) : JsValue → List JsValue → Except JsError JsValue
  | response, [] => .ok response
  | response, c :: cs =>
    match applyCopyItem request response c with
    | .error e => .error e
    | .ok response' => applyCopyList request response' cs

/-- `applyBehavior(response, behavior, request)`. -/
def applyBehavior (request : JsValue) (response : JsValue) (behavior : JsValue) :
    Except JsError JsValue :=
  let copyField := jsGetProp behavior "copy"
  if jsTruthy copyField then
    match copyField with
    | .arr items => applyCopyList request response items
    | _ => .error .typeErrorNotIterable
  else .ok response

/-- The `for (const behavior of response.behaviors)` loop. -/
def applyBehaviorList (request : JsValue) : JsValue → List JsValue → Except JsError JsValue
  | response, [] => .ok response
  | response, b :: bs =>
    match applyBehavior request response b with
    | .error e => .error e
    | .ok response' => applyBehaviorList request response' bs

/-- `MQMessageHandler.processResponse`.  Again `Q.defer()` is the first
statement, so with `Q` unbound this raises before any processing; otherwise
the response is shallow-copied and its behaviors applied in order.
The argument is `stub.responses[0]`, `none` when the response list is empty
(reading `.behaviors` off `undefined` then throws). -/
def processResponse (env : HandlerEnv) (response : Option JsValue) (request : JsValue) :
    Except JsError JsValue :=
  if env.hasQ = false then .error .referenceErrorQ
  else
    match response with
    | none => .error .typeErrorUndefined
    | some r =>
      let processedResponse := jsSpread r
      let behaviorsField := jsGetProp r "behaviors"
      if jsTruthy behaviorsField then
        match behaviorsField with
        | .arr behaviors => applyBehaviorList request processedResponse behaviors
        | _ => .error .typeErrorNotIterable
      else .ok processedResponse

/-- The stub loop of `MQMessageHandler.findMatchingStub`: strictly sequential,
first full match short-circuits with the processed first response. -/
def stubLoop (env : HandlerEnv) (request : JsValue) :
    List Stub → Except JsError (Option JsValue)
  | [] => .ok none
  | stub :: rest =>
    match matchesPredicate env request stub.predicates with
    | .error e => .error e
    | .ok true =>
      match processResponse env stub.responses.head? request with
      | .error e => .error e
      | .ok response => .ok (some response)
    | .ok false => stubLoop env request rest

/-- `findMatchingStub(request, imposterConfig)`: `null` when there is no stub
list, otherwise the sequential scan. -/
def findMatchingStub (env : HandlerEnv) (request : JsValue)
    (imposterConfig : ImposterConfig) : Except JsError (Option JsValue) :=
  match imposterConfig.stubs with
  | none => .ok none
  | some stubs => stubLoop env request stubs

/-- `MQMessageHandler.createRequestFromMessage`: the synthetic HTTP-like
request object. -/
def createRequestFromMessage (clock : JsClock) (message : HandlerMessage) : JsValue :=
  .obj
    [("protocol", .str "mq"),
     ("method", .str "MESSAGE"),
     ("path", .str (jsOrStr message.replyToQueue "/")),
     ("query", .obj []),
     ("headers", .obj
       [("message-id", .str message.messageId),
        ("correlation-id", .str message.correlationId),
        ("message-type", .str (toString message.messageType)),
        ("priority", .str (toString message.priority)),
        ("persistence", .str (toString message.persistence)),
        ("format", .str message.format),
        ("put-application-name", .str (jsOrStr message.putApplicationName "")),
        ("put-time", .str (match message.putTime with | some t => t | none => "")),
        ("expiry", .str (toString message.expiry))]),
     ("body", message.data),
     ("timestamp", .str (match message.putTime with | some t => t | none => clock.nowIso)),
     ("ip", .str "127.0.0.1"),
     ("queue", .str (jsOrStr message.queue ""))]

/-- The handler's `generateMessageId`:
`AMQ` + `Date.now()` + `Math.floor(Math.random() * 1000)`. -/
def handlerGenerateMessageId (clock : JsClock) : String :=
  "AMQ" ++ toString clock.nowMs ++ toString clock.random

/-- `MQMessageHandler.createMessageFromResponse`. -/
def createMessageFromResponse (clock : JsClock) (response : JsValue)
    (originalMessage : HandlerMessage) : OutMessage :=
  let messageData := jsOrVal (jsGetProp response "body")
    (jsOrVal (jsGetProp response "data") (.str ""))
  { messageId := handlerGenerateMessageId clock
    correlationId := originalMessage.messageId
    replyToQueue := ""
    messageType := 2
    persistence := jsOrInt (some originalMessage.persistence) 1
    priority := jsOrInt (some originalMessage.priority) 0
    expiry := jsOrVal (jsGetProp response "expiry") (.num (-1))
    format := jsOrVal (jsGetProp response "format") (.str "MQSTR")
    data := messageData
    putTime := clock.nowIso
    putApplicationName := "Mountebank-MQ-Server"
    responseHeaders := jsOrVal (jsGetProp response "headers") (.obj []) }

/-- `MQMessageHandler.createDefaultResponse`: the fixed no-match error payload
(`JSON.stringify` of the error object, braces escaped). -/
def createDefaultResponse (clock : JsClock) (originalMessage : HandlerMessage) : OutMessage :=
  { messageId := handlerGenerateMessageId clock
    correlationId := originalMessage.messageId
    replyToQueue := ""
    messageType := 2
    persistence := jsOrInt (some originalMessage.persistence) 1
    priority := jsOrInt (some originalMessage.priority) 0
    expiry := .num (-1)
    format := .str "MQSTR"
    data := .str ("\x7b\"status\":\"error\",\"message\":\"No matching stub found\",\"originalMessageId\":\""
      ++ originalMessage.messageId ++ "\"\x7d")
    putTime := clock.nowIso
    putApplicationName := "Mountebank-MQ-Server"
    responseHeaders := .obj [] }

/-- `MQMessageHandler.processMessage`: adapt the message, scan the stubs, and
either return the processed stub response, the default no-match response, or
rethrow the error. -/
def processMessage (env : HandlerEnv) (clock : JsClock) (message : HandlerMessage)
    (imposterConfig : ImposterConfig) : Except JsError OutMessage :=
  let request := createRequestFromMessage clock message
  match findMatchingStub env request imposterConfig with
  | .error e => .error e
  | .ok (some response) => .ok (createMessageFromResponse clock response message)
  | .ok none => .ok (createDefaultResponse clock message)

end MQHandler

namespace MQConfig

/-- A configuration field that is present as either an array or some other
(truthy, non-array) value — the shapes `Array.isArray` distinguishes. -/
inductive Arrayish (α : Type) where
  | arr (items : List α)
  | notArray

/-- Whether a JavaScript value is a string. -/
def jsIsString : JsValue → Bool
  | .str _ => true
  | _ => false

/-- Whether a value is one of the strings of a list:
`['input', 'output', 'both'].includes(v)`. -/
def jsStrIn (v : JsValue) (options : List String) : Bool :=
  match v with
  | .str s => options.contains s
  | _ => false

/-- Truthiness of an optional (possibly absent) field. -/
def optTruthy (v : Option JsValue) : Bool :=
  match v with
  | none => false
  | some x => jsTruthy x

/-- JavaScript `x === undefined` for an object property that may be absent or
explicitly set to `undefined`. -/
def optIsUndefined (v : Option JsValue) : Bool :=
  match v with
  | none => true
  | some .undefined => true
  | some _ => false

/-- The `mq` section of an imposter configuration (fields untyped, as the
validator checks their types). -/
structure MQSection where
  queueManager : Option JsValue := none
  connectionName : Option JsValue := none
  channel : Option JsValue := none
  timeout : Option JsValue := none

/-- An entry of the `queues` configuration array. -/
structure QueueCfg where
  name : Option JsValue := none
  type : Option JsValue := none

/-- The `is` part of a stub response. -/
structure IsCfg where
  body : Option JsValue := none
  data : Option JsValue := none

/-- An entry of a stub's `responses` array.  A behavior is an untyped object,
modelled by its key/value entries. -/
structure ResponseCfg where
  is : Option IsCfg := none
  proxy : Option JsValue := none
  inject : Option JsValue := none
  behaviors : Option (Arrayish (List (String × JsValue))) := none

/-- An entry of the `stubs` configuration array.  A predicate is an untyped
object, modelled by its key/value entries. -/
structure StubCfg where
  predicates : Option (Arrayish (List (String × JsValue))) := none
  responses : Option (Arrayish ResponseCfg) := none

/-- An imposter configuration as inspected by `MQConfig.validateConfig`. -/
structure ImposterConfig where
  port : Option JsValue := none
  protocol : Option JsValue := none
  mq : Option MQSection := none
  queues : Option (Arrayish QueueCfg) := none
  stubs : Option (Arrayish StubCfg) := none

/-- The `validPredicateTypes` list of `MQConfig.validatePredicate`. -/
def validPredicateTypes : List String :=
  ["equals", "contains", "matches", "exists", "not", "or", "and"]

/-- The `validBehaviorTypes` list of `MQConfig.validateBehavior`. -/
def validBehaviorTypes : List String :=
  ["wait", "copy", "lookup", "decorate", "shellTransform"]

/-- `MQConfig.validatePredicate`: every key of the predicate object must be a
known predicate type, and there must be at least one key. -/
def validatePredicate (predicate : List (String × JsValue))
    (stubIndex predicateIndex : Nat) : List String :=
  let predicateTypes := predicate.map Prod.fst
  (if predicateTypes.length = 0 then
    [s!"Stub {stubIndex} predicate {predicateIndex} must have at least one predicate type"]
  else []) ++
  predicateTypes.flatMap fun t =>
    if validPredicateTypes.contains t then []
    else [s!"Stub {stubIndex} predicate {predicateIndex} contains invalid predicate type: {t}"]

/-- `MQConfig.validateBehavior`. -/
def validateBehavior (behavior : List (String × JsValue))
    (stubIndex responseIndex behaviorIndex : Nat) : List String :=
  let behaviorTypes := behavior.map Prod.fst
  (if behaviorTypes.length = 0 then
    [s!"Stub {stubIndex} response {responseIndex} behavior {behaviorIndex} must have at least one behavior type"]
  else []) ++
  (behaviorTypes.flatMap fun t =>
    if validBehaviorTypes.contains t then []
    else [s!"Stub {stubIndex} response {responseIndex} behavior {behaviorIndex} contains invalid behavior type: {t}"]) ++
  (match mapGet behavior "wait" with
   | none => []
   | some w =>
     if jsTruthy w then
       match w with
       | .num n =>
         if n < 0 then
           [s!"Stub {stubIndex} response {responseIndex} behavior {behaviorIndex} \x27wait\x27 must be a non-negative number"]
         else []
       | _ =>
         [s!"Stub {stubIndex} response {responseIndex} behavior {behaviorIndex} \x27wait\x27 must be a non-negative number"]
     else [])

/-- `MQConfig.validateResponse`. -/
def validateResponse (response : ResponseCfg) (stubIndex responseIndex : Nat) :
    List String :=
  (if response.is.isSome || optTruthy response.proxy || optTruthy response.inject then []
   else [s!"Stub {stubIndex} response {responseIndex} must have \x27is\x27, \x27proxy\x27, or \x27inject\x27 field"]) ++
  (match response.is with
   | none => []
   | some isCfg =>
     if optIsUndefined isCfg.body && optIsUndefined isCfg.data then
       [s!"Stub {stubIndex} response {responseIndex} \x27is\x27 response should have \x27body\x27 or \x27data\x27 field"]
     else []) ++
  (match response.behaviors with
   | none => []
   | some .notArray => [s!"Stub {stubIndex} response {responseIndex} behaviors must be an array"]
   | some (.arr behaviors) =>
     behaviors.enum.flatMap fun p => validateBehavior p.2 stubIndex responseIndex p.1)

/-- The TypeError raised by `stub.responses.forEach(...)` when `responses` is
a truthy non-array value: the only `forEach` in the validator that is not
guarded by an `Array.isArray` check. -/
inductive ConfigTypeError where
  | forEachNotFunction
deriving DecidableEq

/-- The first check of `MQConfig.validateStub`:
`!stub.responses || !Array.isArray(stub.responses) || stub.responses.length === 0`. -/
def stubResponsesPresenceErrors (stub : StubCfg) (stubIndex : Nat) : List String :=
  match stub.responses with
  | some (.arr rs) =>
    if rs.length = 0 then [s!"Stub at index {stubIndex} must have at least one response"] else []
  | _ => [s!"Stub at index {stubIndex} must have at least one response"]

/-- The predicates section of `MQConfig.validateStub` (its `forEach` is
guarded by `Array.isArray`). -/
def stubPredicateErrors (stub : StubCfg) (stubIndex : Nat) : List String :=
  match stub.predicates with
  | none => []
  | some .notArray => [s!"Stub at index {stubIndex} predicates must be an array"]
  | some (.arr preds) =>
    preds.enum.flatMap fun p => validatePredicate p.2 stubIndex p.1

/-- `MQConfig.validateStub`, in source order: the responses-presence check and
the predicates section push errors; then `if (stub.responses)` runs
`stub.responses.forEach(...)` unguarded, so a truthy non-array `responses`
throws a TypeError there (discarding the errors pushed so far), an absent
`responses` skips the section, and an array is validated response by
response. -/
def validateStub (stub : StubCfg) (stubIndex : Nat) : Except ConfigTypeError (List String) :=
  match stub.responses with
  | none => .ok (stubResponsesPresenceErrors stub stubIndex ++ stubPredicateErrors stub stubIndex)
  | some .notArray => .error .forEachNotFunction
  | some (.arr rs) =>
    .ok (stubResponsesPresenceErrors stub stubIndex ++ stubPredicateErrors stub stubIndex ++
      rs.enum.flatMap fun p => validateResponse p.2 stubIndex p.1)

/-- The `imposterConfig.stubs.forEach(...)` loop of `validateConfig`: stub
error lists are concatenated in order, and a TypeError thrown by any stub
aborts the whole loop. -/
def validateStubs : List (Nat × StubCfg) → Except ConfigTypeError (List String)
  | [] => .ok []
  | p :: rest =>
    match validateStub p.2 p.1 with
    | .error e => .error e
    | .ok errs =>
      match validateStubs rest with
      | .error e => .error e
      | .ok more => .ok (errs ++ more)

/-- The error entries `validateConfig` pushes before reaching the stubs
section: port, protocol, the `mq` section and the `queues` section. -/
def baseConfigErrors (imposterConfig : ImposterConfig) : List String :=
  (if optTruthy imposterConfig.port then []
   else ["MQ imposter requires a \x27port\x27 field"]) ++
  (match imposterConfig.protocol with
   | none => ["MQ imposter requires protocol to be \x27mq\x27"]
   | some v =>
     if jsTruthy v = false || jsStrictEq v (.str "mq") = false then
       ["MQ imposter requires protocol to be \x27mq\x27"]
     else []) ++
  (match imposterConfig.mq with
   | none => []
   | some mqc =>
     (match mqc.queueManager with
      | none => []
      | some x => if jsTruthy x && !jsIsString x then ["MQ queueManager must be a string"] else []) ++
     (match mqc.connectionName with
      | none => []
      | some x => if jsTruthy x && !jsIsString x then ["MQ connectionName must be a string"] else []) ++
     (match mqc.channel with
      | none => []
      | some x => if jsTruthy x && !jsIsString x then ["MQ channel must be a string"] else []) ++
     (match mqc.timeout with
      | none => []
      | some x =>
        if jsTruthy x then
          match x with
          | .num n => if n < 0 then ["MQ timeout must be a non-negative number"] else []
          | _ => ["MQ timeout must be a non-negative number"]
        else [])) ++
  (match imposterConfig.queues with
   | none => []
   | some .notArray => ["MQ queues must be an array"]
   | some (.arr qs) =>
     qs.enum.flatMap fun p =>
       (match p.2.name with
        | some (.str s) =>
          if s = "" then [s!"Queue at index {p.fst} must have a name field of type string"] else []
        | _ => [s!"Queue at index {p.fst} must have a name field of type string"]) ++
       (match p.2.type with
        | none => []
        | some t =>
          if jsTruthy t && !jsStrIn t ["input", "output", "both"] then
            [s!"Queue at index {p.fst} type must be \x27input\x27, \x27output\x27, or \x27both\x27"]
          else []))

/-- The error list accumulated by `MQConfig.validateConfig`, in push order,
or the TypeError that escapes the stubs loop before the aggregate can be
examined. -/
def validationErrors (imposterConfig : ImposterConfig) :
    Except ConfigTypeError (List String) :=
  match imposterConfig.stubs with
  | none => .ok (baseConfigErrors imposterConfig)
  | some .notArray => .ok (baseConfigErrors imposterConfig ++ ["MQ stubs must be an array"])
  | some (.arr stubs) =>
    match validateStubs stubs.enum with
    | .error e => .error e
    | .ok errs => .ok (baseConfigErrors imposterConfig ++ errs)

/-- The object thrown by `validateConfig` when errors were collected. -/
structure ValidationError where
  code : String
  message : String
  errors : List String
deriving DecidableEq

/-- What `validateConfig` can throw: the TypeError escaping
`stub.responses.forEach` (rethrown unchanged by the `catch`), or the
aggregated `bad request` object. -/
inductive ValidationThrow where
  | typeError (e : ConfigTypeError)
  | badRequest (err : ValidationError)
deriving DecidableEq

/-- `MQConfig.validateConfig`: collect every error, then throw the aggregate
`bad request` object if any was found (imposter creation is aborted
entirely); a TypeError raised while collecting propagates instead (the
`catch (error) { throw error; }` rethrows it); otherwise the configuration is
accepted. -/
def validateConfig (imposterConfig : ImposterConfig) : Except ValidationThrow Unit :=
  match validationErrors imposterConfig with
  | .error e => .error (.typeError e)
  | .ok errors =>
    if errors.length > 0 then
      .error (.badRequest
        { code := "bad request", message := "MQ imposter validation failed", errors := errors })
    else .ok ()

end MQConfig

namespace MockMQ

/-- A message literal used as concrete data by several evaluations. -/
def sampleMessage : Message :=
  { messageId := "MSG-00000001-0"
    correlationId := "CORR-00000001-0"
    data := "hello"
    putTime := "e"
    priority := 0
    persistence := 1
    format := "MQSTR"
    messageType := 8
    replyToQueue := ""
    expiry := -1
    putApplicationName := "MockMQServer" }

/-- A second message literal. -/
def sampleMessage2 : Message :=
  { sampleMessage with messageId := "MSG-00000002-0", data := "world" }

/-- A freshly constructed server (no state file). -/
def sampleServer : MockMQServer := mkMockMQServer none ⟨0, "e"⟩

/-- The first default queue of `sampleServer`. -/
def sampleQueue : MQQueue :=
  { name := "DEV.QUEUE.1"
    messages := []
    maxDepth := 10000
    description := "Mock queue: DEV.QUEUE.1"
    created := "e"
    openInputCount := 0
    openOutputCount := 0
    totalMessagesIn := 0
    totalMessagesOut := 0 }

/-- A queue holding two messages with room to spare. -/
def busyQueue : MQQueue :=
  { sampleQueue with name := "Q1", messages := [sampleMessage, sampleMessage2], maxDepth := 5 }

/-- A server whose queue `Q1` holds two messages. -/
def busyServer : MockMQServer :=
  { queues := [("Q1", busyQueue)]
    messageId := 3
    correlationId := 3
    isRunning := false
    queueManager := "MOCK_QM1" }

/-- A queue at capacity. -/
def fullQueue : MQQueue :=
  { sampleQueue with name := "QF", messages := [sampleMessage], maxDepth := 1 }

/-- A server whose queue `QF` is at capacity. -/
def fullServer : MockMQServer :=
  { busyServer with queues := [("QF", fullQueue)] }

/-- A state file that defines only a custom queue and none of the defaults. -/
def customOnlyFile : PersistedData :=
  { queues := [("CUSTOM.QUEUE", { sampleQueue with name := "CUSTOM.QUEUE" })]
    messageId := 7
    correlationId := 9
    lastSaved := "t0" }

end MockMQ

namespace MQHandler

/-- A concrete inbound message used by the handler evaluations. -/
def sampleHandlerMessage : HandlerMessage :=
  { messageId := "MID1"
    correlationId := "CID1"
    messageType := 8
    priority := 0
    persistence := 1
    format := "MQSTR"
    expiry := -1
    data := .str "x" }

/-- A concrete stub with one equals-predicate. -/
def sampleStub : Stub :=
  { predicates := some [{ equals := some [("body", .str "x")] }]
    responses := [.obj [("is", .obj [("data", .str "y")])]] }

/-- A concrete imposter configuration with one predicated stub. -/
def sampleImposterConfig : ImposterConfig := { stubs := some [sampleStub] }

/-- The stub of the specification's example scenario: predicate
`{contains: {body: "GET_PRODUCT"}}` with an `is` response. -/
def getProductStub : Stub :=
  { predicates := some [{ contains := some [("body", "GET_PRODUCT")] }]
    responses := [.obj [("is", .obj [("data", .str "\x7b\"productId\":\"12345\"\x7d")])]] }

/-- A configuration holding only the GET_PRODUCT stub. -/
def getProductConfig : ImposterConfig := { stubs := some [getProductStub] }

/-- A message whose body contains `GET_PRODUCT`, so the example stub's
predicate set matches it. -/
def getProductMessage : HandlerMessage :=
  { sampleHandlerMessage with data := .str "operation GET_PRODUCT 12345" }

end MQHandler

namespace MQConfig

/-- A stub configuration whose single predicate object uses the key `or`,
which is not one of equals / contains / matches / exists. -/
def orStub : StubCfg :=
  { predicates := some (.arr [[("or", JsValue.arr [])]])
    responses := some (.arr [{ is := some { data := some (.str "x") } }]) }

/-- An otherwise fully valid imposter configuration containing `orStub`. -/
def orPredicateConfig : ImposterConfig :=
  { port := some (.num 1414)
    protocol := some (.str "mq")
    stubs := some (.arr [orStub]) }

/-- A stub configuration whose single predicate object uses the unknown key
`foo`. -/
def fooStub : StubCfg :=
  { predicates := some (.arr [[("foo", JsValue.arr [])]])
    responses := some (.arr [{ is := some { data := some (.str "x") } }]) }

/-- An otherwise fully valid imposter configuration containing `fooStub`. -/
def fooPredicateConfig : ImposterConfig :=
  { port := some (.num 1414)
    protocol := some (.str "mq")
    stubs := some (.arr [fooStub]) }

end MQConfig

namespace MockMQ

theorem mapGet_mapSet_self {α : Type} (m : List (String × α)) (k : String) (v : α) :
    mapGet (mapSet m k v) k = some v := by
  induction m with
  | nil => simp [mapSet, mapGet]
  | cons hd tl ih =>
    obtain ⟨k', v'⟩ := hd
    by_cases h : k' = k
    · subst h; simp [mapSet, mapGet]
    · simp [mapSet, mapGet, h, ih]

theorem mem_mapSet {α : Type} {m : List (String × α)} {k : String} {v : α}
    {kv : String × α} (h : kv ∈ mapSet m k v) : kv = (k, v) ∨ kv ∈ m := by
  induction m with
  | nil =>
    simp only [mapSet, List.mem_singleton] at h
    exact Or.inl h
  | cons hd tl ih =>
    obtain ⟨k', v'⟩ := hd
    by_cases hk : k' = k
    · subst hk
      simp only [mapSet, if_true, eq_self_iff_true, List.mem_cons] at h
      rcases h with h | h
      · exact Or.inl h
      · exact Or.inr (List.mem_cons_of_mem _ h)
    · simp only [mapSet, if_neg hk, List.mem_cons] at h
      rcases h with h | h
      · exact Or.inr (List.mem_cons.mpr (Or.inl h))
      · rcases ih h with h' | h'
        · exact Or.inl h'
        · exact Or.inr (List.mem_cons_of_mem _ h')

theorem mapGet_mem {α : Type} {m : List (String × α)} {k : String} {v : α}
    (h : mapGet m k = some v) : (k, v) ∈ m := by
  induction m with
  | nil => simp [mapGet] at h
  | cons hd tl ih =>
    obtain ⟨k', v'⟩ := hd
    by_cases hk : k' = k
    · subst hk
      simp only [mapGet, if_true, eq_self_iff_true, Option.some.injEq] at h
      simp [h]
    · simp only [mapGet, if_neg hk] at h
      exact List.mem_cons_of_mem _ (ih h)

theorem mem_mapDelete {α : Type} {m : List (String × α)} {k : String}
    {kv : String × α} (h : kv ∈ mapDelete m k) : kv ∈ m := by
  induction m with
  | nil => simp only [mapDelete] at h; cases h
  | cons hd tl ih =>
    obtain ⟨k', v'⟩ := hd
    by_cases hk : k' = k
    · subst hk
      simp only [mapDelete, if_true, eq_self_iff_true] at h
      exact List.mem_cons_of_mem _ h
    · simp only [mapDelete, if_neg hk, List.mem_cons] at h
      rcases h with h | h
      · exact List.mem_cons.mpr (Or.inl h)
      · exact List.mem_cons_of_mem _ (ih h)

theorem resolveCorrelationId_queues (options : PutOptions) (s1 : MockMQServer)
    (nowMs : Nat) : (resolveCorrelationId options s1 nowMs).2.queues = s1.queues := by
  cases hc : options.correlationId with
  | none => simp [resolveCorrelationId, hc]
  | some c =>
    by_cases hce : c = "" <;> simp [resolveCorrelationId, hc, hce]

theorem putMessage_notFound (s : MockMQServer) (queueName messageData : String)
    (options : PutOptions) (now : JsDate) (h : mapGet s.queues queueName = none) :
    putMessage s queueName messageData options now =
      (.error (.queueNotFound queueName), s) := by
  simp [putMessage, h]

theorem putMessage_full (s : MockMQServer) (queueName : String) (queue : MQQueue)
    (messageData : String) (options : PutOptions) (now : JsDate)
    (h : mapGet s.queues queueName = some queue)
    (hfull : queue.maxDepth ≤ queue.messages.length) :
    putMessage s queueName messageData options now =
      (.error (.queueFull queueName queue.maxDepth), s) := by
  simp [putMessage, h, hfull]

theorem putMessage_ok (s : MockMQServer) (queueName : String) (queue : MQQueue)
    (messageData : String) (options : PutOptions) (now : JsDate)
    (h : mapGet s.queues queueName = some queue)
    (hlt : queue.messages.length < queue.maxDepth) :
    ∃ (m : Message) (s' : MockMQServer),
      putMessage s queueName messageData options now = (.ok m, s') ∧
      m.data = messageData ∧
      s'.queues = mapSet s.queues queueName
        { queue with
          messages := queue.messages ++ [m]
          totalMessagesIn := queue.totalMessagesIn + 1 } := by
  simp only [putMessage, h]
  rw [if_neg (not_le.mpr hlt)]
  refine ⟨_, _, rfl, rfl, ?_⟩
  simp [resolveCorrelationId_queues]

theorem getMessage_notFound (s : MockMQServer) (queueName : String) (options : GetOptions)
    (h : mapGet s.queues queueName = none) :
    getMessage s queueName options = (.error (.queueNotFound queueName), s) := by
  simp [getMessage, h]

theorem getMessage_empty (s : MockMQServer) (queueName : String) (queue : MQQueue)
    (options : GetOptions) (h : mapGet s.queues queueName = some queue)
    (he : queue.messages = []) :
    getMessage s queueName options = (.ok none, s) := by
  simp [getMessage, h, he]

theorem getMessage_browse (s : MockMQServer) (queueName : String) (queue : MQQueue)
    (h : mapGet s.queues queueName = some queue) :
    getMessage s queueName { browse := true } = (.ok queue.messages.head?, s) := by
  simp only [getMessage, h]
  cases queue.messages <;> simp

theorem getMessage_cons (s : MockMQServer) (queueName : String) (queue : MQQueue)
    (m : Message) (rest : List Message)
    (h : mapGet s.queues queueName = some queue) (hm : queue.messages = m :: rest) :
    getMessage s queueName { browse := false } =
      (.ok (some m),
       { s with queues := (mapSet s.queues queueName
           { queue with
             messages := rest
             totalMessagesOut := queue.totalMessagesOut + 1 }) }) := by
  simp [getMessage, h, hm]

theorem clearQueue_eq (s : MockMQServer) (queueName : String) (queue : MQQueue)
    (h : mapGet s.queues queueName = some queue) :
    clearQueue s queueName =
      (.ok queue.messages.length,
       { s with queues := mapSet s.queues queueName { queue with messages := [] } }) := by
  simp [clearQueue, h]

/-- C2: a `putMessage` against a queue whose depth equals `maxDepth` fails
with the queue-full error and returns the state bit-for-bit unchanged, and
every queue operation preserves the invariant that each queue holds at most
`maxDepth` messages. -/
theorem putFull_and_depthInvariant :
    (∀ (s : MockMQServer) (queueName : String) (queue : MQQueue) (messageData : String)
       (options : PutOptions) (now : JsDate),
       mapGet s.queues queueName = some queue →
       queue.messages.length = queue.maxDepth →
       putMessage s queueName messageData options now =
         (.error (.queueFull queueName queue.maxDepth), s)) ∧
    (∀ (s : MockMQServer) (queueName messageData : String) (options : PutOptions)
       (now : JsDate), depthInvariant s →
       depthInvariant (putMessage s queueName messageData options now).2) ∧
    (∀ (s : MockMQServer) (queueName : String) (options : GetOptions),
       depthInvariant s → depthInvariant (getMessage s queueName options).2) ∧
    (∀ (s : MockMQServer) (queueName : String),
       depthInvariant s → depthInvariant (clearQueue s queueName).2) ∧
    (∀ (s : MockMQServer) (queueName : String) (options : CreateOptions) (now : JsDate),
       depthInvariant s → depthInvariant (createQueue s queueName options now).2) ∧
    (∀ (s : MockMQServer) (queueName : String),
       depthInvariant s → depthInvariant (deleteQueue s queueName).2) := by
  refine ⟨?_, ?_, ?_, ?_, ?_, ?_⟩
  · intro s queueName queue messageData options now h heq
    exact putMessage_full s queueName queue messageData options now h (le_of_eq heq.symm)
  · intro s queueName messageData options now hinv
    rcases hq : mapGet s.queues queueName with _ | queue
    · rw [putMessage_notFound s queueName messageData options now hq]
      exact hinv
    · by_cases hfull : queue.maxDepth ≤ queue.messages.length
      · rw [putMessage_full s queueName queue messageData options now hq hfull]
        exact hinv
      · obtain ⟨m, s', heq, -, hqs⟩ :=
          putMessage_ok s queueName queue messageData options now hq (lt_of_not_le hfull)
        rw [heq]
        intro kv hkv
        rw [hqs] at hkv
        rcases mem_mapSet hkv with h1 | h1
        · subst h1
          simpa using lt_of_not_le hfull
        · exact hinv kv h1
  · intro s queueName options hinv
    rcases hq : mapGet s.queues queueName with _ | queue
    · rw [getMessage_notFound s queueName options hq]
      exact hinv
    · rcases hm : queue.messages with _ | ⟨m, rest⟩
      · rw [getMessage_empty s queueName queue options hq hm]
        exact hinv
      · rcases options with ⟨b⟩
        cases b
        · rw [getMessage_cons s queueName queue m rest hq hm]
          intro kv hkv
          rcases mem_mapSet hkv with h1 | h1
          · subst h1
            have := hinv (queueName, queue) (mapGet_mem hq)
            simp only at this ⊢
            simp only [hm, List.length_cons] at this
            omega
          · exact hinv kv h1
        · rw [getMessage_browse s queueName queue hq]
          exact hinv
  · intro s queueName hinv
    rcases hq : mapGet s.queues queueName with _ | queue
    · simp only [clearQueue, hq]
      exact hinv
    · rw [clearQueue_eq s queueName queue hq]
      intro kv hkv
      rcases mem_mapSet hkv with h1 | h1
      · subst h1; simp
      · exact hinv kv h1
  · intro s queueName options now hinv
    by_cases hh : mapHas s.queues queueName
    · simp only [createQueue, hh, if_true]
      exact hinv
    · simp only [createQueue, hh, if_false, Bool.false_eq_true]
      intro kv hkv
      rcases mem_mapSet hkv with h1 | h1
      · subst h1; simp
      · exact hinv kv h1
  · intro s queueName hinv
    intro kv hkv
    exact hinv kv (mem_mapDelete hkv)

/-- C2 witness: on a concrete server whose queue `QF` is at its capacity of
one message, `putMessage` fails with the queue-full error, leaves the state
unchanged, and the depth bound still holds afterwards. -/
theorem putFull_and_depthInvariant_witness :
    putMessage fullServer "QF" "x" {} ⟨0, "e"⟩ = (.error (.queueFull "QF" 1), fullServer) ∧
    depthInvariant (putMessage fullServer "QF" "x" {} ⟨0, "e"⟩).2 :=
  ⟨putFull_and_depthInvariant.1 fullServer "QF" fullQueue "x" {} ⟨0, "e"⟩
      (by decide) (by decide),
   putFull_and_depthInvariant.2.1 fullServer "QF" "x" {} ⟨0, "e"⟩ (by decide)⟩

/-- C3: a browse `getMessage` returns the head message (`none` on an empty
queue) and returns the server state bit-for-bit unchanged, so `currentDepth`
and `totalMessagesOut` are untouched and every subsequent `getMessage`
(browse or not) behaves exactly as if the browse had not happened. -/
theorem browse_frame (s : MockMQServer) (queueName : String) (queue : MQQueue)
    (h : mapGet s.queues queueName = some queue) :
    getMessage s queueName { browse := true } = (.ok queue.messages.head?, s) ∧
    (getMessage s queueName { browse := true }).2 = s ∧
    ∀ options' : GetOptions,
      getMessage (getMessage s queueName { browse := true }).2 queueName options' =
        getMessage s queueName options' := by
  have h1 := getMessage_browse s queueName queue h
  exact ⟨h1, by rw [h1], fun o => by rw [h1]⟩

/-- C3 witness: browsing queue `Q1` of a concrete two-message server returns
the head message and the unchanged server. -/
theorem browse_frame_witness :
    getMessage busyServer "Q1" { browse := true } =
      (.ok (some sampleMessage), busyServer) :=
  (browse_frame busyServer "Q1" busyQueue (by decide)).1

/-- C4: `getMessage` on an existing empty queue returns `null` (not an error)
for both browse and non-browse modes and leaves the server state unchanged. -/
theorem getEmpty_null (s : MockMQServer) (queueName : String) (queue : MQQueue)
    (options : GetOptions) (h : mapGet s.queues queueName = some queue)
    (he : queue.messages = []) :
    getMessage s queueName options = (.ok none, s) :=
  getMessage_empty s queueName queue options h he

/-- C4 witness: a non-browse get on the empty default queue of a freshly
constructed server returns `null` and the unchanged server; likewise for a
browse get. -/
theorem getEmpty_null_witness :
    getMessage sampleServer "DEV.QUEUE.1" { browse := false } = (.ok none, sampleServer) ∧
    getMessage sampleServer "DEV.QUEUE.1" { browse := true } = (.ok none, sampleServer) :=
  ⟨getEmpty_null sampleServer "DEV.QUEUE.1" sampleQueue { browse := false }
      (by decide) (by decide),
   getEmpty_null sampleServer "DEV.QUEUE.1" sampleQueue { browse := true }
      (by decide) (by decide)⟩

/-- C9: `clearQueue` on an existing queue returns the pre-clear depth as its
cleared count, empties the message list (`currentDepth` becomes 0), and
changes none of `totalMessagesIn`, `totalMessagesOut`, `openInputCount`,
`openOutputCount`. -/
theorem clearQueue_spec (s : MockMQServer) (queueName : String) (queue : MQQueue)
    (h : mapGet s.queues queueName = some queue) :
    (clearQueue s queueName).1 = .ok queue.messages.length ∧
    ∃ queue', mapGet (clearQueue s queueName).2.queues queueName = some queue' ∧
      queue'.messages.length = 0 ∧
      queue'.maxDepth = queue.maxDepth ∧
      queue'.totalMessagesIn = queue.totalMessagesIn ∧
      queue'.totalMessagesOut = queue.totalMessagesOut ∧
      queue'.openInputCount = queue.openInputCount ∧
      queue'.openOutputCount = queue.openOutputCount := by
  have h1 := clearQueue_eq s queueName queue h
  constructor
  · rw [h1]
  · refine ⟨{ queue with messages := [] }, ?_, rfl, rfl, rfl, rfl, rfl, rfl⟩
    rw [h1]
    exact mapGet_mapSet_self s.queues queueName { queue with messages := [] }

theorem putSeq_ok (queueName : String) :
    ∀ (inputs : List (String × PutOptions × JsDate)) (s : MockMQServer) (queue : MQQueue),
    mapGet s.queues queueName = some queue →
    queue.messages.length + inputs.length ≤ queue.maxDepth →
    ∃ (ms : List Message) (s' : MockMQServer) (queue' : MQQueue),
      putSeq s queueName inputs = (ms.map Except.ok, s') ∧
      ms.length = inputs.length ∧
      ms.map Message.data = inputs.map (fun i => i.1) ∧
      mapGet s'.queues queueName = some queue' ∧
      queue'.messages = queue.messages ++ ms ∧
      queue'.maxDepth = queue.maxDepth := by
  intro inputs
  induction inputs with
  | nil =>
    intro s queue hq _
    exact ⟨[], s, queue, rfl, rfl, rfl, hq, by simp, rfl⟩
  | cons input rest ih =>
    intro s queue hq hcap
    obtain ⟨messageData, options, now⟩ := input
    have hlt : queue.messages.length < queue.maxDepth := by
      simp only [List.length_cons] at hcap
      omega
    obtain ⟨m, s1, heq, hdata, hqs⟩ :=
      putMessage_ok s queueName queue messageData options now hq hlt
    have hq1 : mapGet s1.queues queueName =
        some { queue with
               messages := queue.messages ++ [m]
               totalMessagesIn := queue.totalMessagesIn + 1 } := by
      rw [hqs]
      exact mapGet_mapSet_self _ _ _
    have hcap1 :
        ({ queue with
           messages := queue.messages ++ [m]
           totalMessagesIn := queue.totalMessagesIn + 1 } : MQQueue).messages.length
          + rest.length ≤
        ({ queue with
           messages := queue.messages ++ [m]
           totalMessagesIn := queue.totalMessagesIn + 1 } : MQQueue).maxDepth := by
      simp only [List.length_append, List.length_cons, List.length_nil] at *
      omega
    obtain ⟨ms, s', queue', hps, hlen, hdatas, hq', hmsgs, hmd⟩ := ih s1 _ hq1 hcap1
    refine ⟨m :: ms, s', queue', ?_, ?_, ?_, hq', ?_, ?_⟩
    · simp [putSeq, heq, hps]
    · simp [hlen]
    · simp [hdata, hdatas]
    · rw [hmsgs]
      simp
    · rw [hmd]

theorem getSeq_drain (queueName : String) :
    ∀ (ms : List Message) (s : MockMQServer) (queue : MQQueue),
    mapGet s.queues queueName = some queue →
    queue.messages = ms →
    (getSeq s queueName ms.length).1 = ms.map (fun m => Except.ok (some m)) := by
  intro ms
  induction ms with
  | nil =>
    intro s queue _ _
    rfl
  | cons m rest ih =>
    intro s queue hq hm
    have hget := getMessage_cons s queueName queue m rest hq hm
    have hq2 : mapGet
        ({ s with queues := (mapSet s.queues queueName
            { queue with
              messages := rest
              totalMessagesOut := queue.totalMessagesOut + 1 }) } : MockMQServer).queues
        queueName =
        some { queue with
               messages := rest
               totalMessagesOut := queue.totalMessagesOut + 1 } :=
      mapGet_mapSet_self _ _ _
    have hrec := ih _ _ hq2 rfl
    simp [getSeq, hget, hrec]

theorem mapGet_append_of_none {α : Type} {m₁ : List (String × α)}
    (m₂ : List (String × α)) (k : String) (h : mapGet m₁ k = none) :
    mapGet (m₁ ++ m₂) k = mapGet m₂ k := by
  induction m₁ with
  | nil => rfl
  | cons hd tl ih =>
    obtain ⟨k', v'⟩ := hd
    by_cases hk : k' = k
    · subst hk
      simp [mapGet] at h
    · simp only [mapGet, if_neg hk] at h
      simpa [mapGet, hk] using ih h

theorem mapSet_of_none {α : Type} {m : List (String × α)} {k : String} (v : α)
    (h : mapGet m k = none) : mapSet m k v = m ++ [(k, v)] := by
  induction m with
  | nil => rfl
  | cons hd tl ih =>
    obtain ⟨k', v'⟩ := hd
    by_cases hk : k' = k
    · subst hk
      simp [mapGet] at h
    · simp only [mapGet, if_neg hk] at h
      simp [mapSet, hk, ih h]

theorem foldl_mapSet_append {α : Type} :
    ∀ (l acc : List (String × α)),
    (∀ kv ∈ l, mapGet acc kv.1 = none) → (l.map Prod.fst).Nodup →
    l.foldl (fun m kv => mapSet m kv.1 kv.2) acc = acc ++ l := by
  intro l
  induction l with
  | nil =>
    intro acc _ _
    simp
  | cons kv rest ih =>
    intro acc hdisj hnodup
    obtain ⟨k, v⟩ := kv
    simp only [List.foldl_cons]
    have hset : mapSet acc k v = acc ++ [(k, v)] :=
      mapSet_of_none v (hdisj (k, v) (by simp))
    rw [hset]
    have hnodup' : (rest.map Prod.fst).Nodup := by
      simp only [List.map_cons, List.nodup_cons] at hnodup
      exact hnodup.2
    have hdisj' : ∀ kv' ∈ rest, mapGet (acc ++ [(k, v)]) kv'.1 = none := by
      intro kv' hkv'
      have h1 : mapGet acc kv'.1 = none := hdisj kv' (List.mem_cons_of_mem _ hkv')
      rw [mapGet_append_of_none _ _ h1]
      have hne : k ≠ kv'.1 := by
        simp only [List.map_cons, List.nodup_cons] at hnodup
        intro he
        exact hnodup.1 (he ▸ List.mem_map_of_mem Prod.fst hkv')
      simp [mapGet, hne]
    rw [ih (acc ++ [(k, v)]) hdisj' hnodup']
    simp

theorem mapFromEntries_self {α : Type} (l : List (String × α))
    (h : (l.map Prod.fst).Nodup) : mapFromEntries l = l := by
  have := foldl_mapSet_append l [] (fun kv _ => rfl) h
  simpa [mapFromEntries] using this

/-- C5: saving a server's state and loading the file into a freshly
constructed server restores the queue map verbatim — hence every queue that
existed at snapshot time has identical `currentDepth`, `totalMessagesIn` and
`totalMessagesOut` — and restores the `messageId` and `correlationId`
counters.  The hypotheses (distinct queue names, counters at least 1) hold of
every state the server can actually reach: queues are keyed by a map and both
counters start at 1 and only grow. -/
theorem persist_roundtrip (s : MockMQServer) (saveNow bootNow : JsDate)
    (hnodup : (s.queues.map Prod.fst).Nodup)
    (hmid : 1 ≤ s.messageId) (hcid : 1 ≤ s.correlationId) :
    (mkMockMQServer (some (savePersistentData s saveNow)) bootNow).queues = s.queues ∧
    (mkMockMQServer (some (savePersistentData s saveNow)) bootNow).messageId = s.messageId ∧
    (mkMockMQServer (some (savePersistentData s saveNow)) bootNow).correlationId = s.correlationId ∧
    ∀ queueName,
      getQueueDepth (mkMockMQServer (some (savePersistentData s saveNow)) bootNow) queueName =
        getQueueDepth s queueName := by
  have hqueues :
      (mkMockMQServer (some (savePersistentData s saveNow)) bootNow).queues = s.queues := by
    simp only [mkMockMQServer, loadPersistentData, savePersistentData]
    exact mapFromEntries_self s.queues hnodup
  refine ⟨hqueues, ?_, ?_, ?_⟩
  · simp only [mkMockMQServer, loadPersistentData, savePersistentData]
    rw [if_neg (by omega)]
  · simp only [mkMockMQServer, loadPersistentData, savePersistentData]
    rw [if_neg (by omega)]
  · intro queueName
    unfold getQueueDepth
    rw [hqueues]

/-- C5 witness: the round trip through a saved state file reproduces the
concrete two-message server's queue map and its `Q1` depth report. -/
theorem persist_roundtrip_witness :
    (mkMockMQServer (some (savePersistentData busyServer ⟨5, "t1"⟩)) ⟨6, "t2"⟩).queues =
      busyServer.queues ∧
    getQueueDepth (mkMockMQServer (some (savePersistentData busyServer ⟨5, "t1"⟩)) ⟨6, "t2"⟩)
      "Q1" = getQueueDepth busyServer "Q1" :=
  ⟨(persist_roundtrip busyServer ⟨5, "t1"⟩ ⟨6, "t2"⟩ (by decide) (by decide) (by decide)).1,
   (persist_roundtrip busyServer ⟨5, "t1"⟩ ⟨6, "t2"⟩ (by decide) (by decide)
      (by decide)).2.2.2 "Q1"⟩

/-- C6 (amended): when the state file exists and parses, the loaded state
fully replaces the in-memory state — the queue map becomes exactly
`new Map(data.queues)` and the counters are restored with a `|| 1` fallback —
and the default queues are not reapplied at all; when the file is absent or
unparseable, the server starts with exactly the five default queues. -/
theorem constructor_replaces_state (d : PersistedData) (now : JsDate) :
    (mkMockMQServer (some d) now).queues = mapFromEntries d.queues ∧
    (mkMockMQServer (some d) now).messageId = (if d.messageId = 0 then 1 else d.messageId) ∧
    (mkMockMQServer (some d) now).correlationId =
      (if d.correlationId = 0 then 1 else d.correlationId) ∧
    (mkMockMQServer none now).queues = defaultQueueNames.map (fun queueName =>
      (queueName,
       { name := queueName
         messages := []
         maxDepth := 10000
         description := "Mock queue: " ++ queueName
         created := now.iso
         openInputCount := 0
         openOutputCount := 0
         totalMessagesIn := 0
         totalMessagesOut := 0 })) :=
  ⟨rfl, rfl, rfl, rfl⟩

/-- C6 counterexample: with a parsed state file that does not define the
default queue `DEV.QUEUE.1`, the constructed server does not contain
`DEV.QUEUE.1` either — the default-queue set is not restored for defaults
missing from the loaded state, contrary to the claim. -/
theorem constructor_defaults_not_restored :
    mapGet customOnlyFile.queues "DEV.QUEUE.1" = none ∧
    mapGet (mkMockMQServer (some customOnlyFile) ⟨0, "e"⟩).queues "DEV.QUEUE.1" = none ∧
    mapGet (mkMockMQServer (some customOnlyFile) ⟨0, "e"⟩).queues "CUSTOM.QUEUE" =
      some { sampleQueue with name := "CUSTOM.QUEUE" } :=
  ⟨by decide, by decide, by decide⟩

/-- C1: starting from any server whose target queue exists and is empty, a
sequence of `putMessage` calls that fits within `maxDepth`, followed by as
many non-browse `getMessage` calls, succeeds entirely: the puts return the
stored messages in order (carrying the supplied payloads in order), and the
gets return exactly those messages in the order they were put (FIFO). -/
theorem putGet_fifo (s : MockMQServer) (queueName : String) (queue : MQQueue)
    (inputs : List (String × PutOptions × JsDate))
    (hq : mapGet s.queues queueName = some queue)
    (hempty : queue.messages = [])
    (hcap : inputs.length ≤ queue.maxDepth) :
    ∃ (ms : List Message) (s' : MockMQServer),
      putSeq s queueName inputs = (ms.map Except.ok, s') ∧
      ms.length = inputs.length ∧
      ms.map Message.data = inputs.map (fun i => i.1) ∧
      (getSeq s' queueName ms.length).1 = ms.map (fun m => Except.ok (some m)) := by
  obtain ⟨ms, s', queue', hps, hlen, hdatas, hq', hmsgs, hmd⟩ :=
    putSeq_ok queueName inputs s queue hq (by rw [hempty]; simpa using hcap)
  refine ⟨ms, s', hps, hlen, hdatas, ?_⟩
  apply getSeq_drain queueName ms s' queue' hq'
  rw [hmsgs, hempty]
  simp

/-- C1 witness: on a fresh server, putting payloads `a` then `b` into the
empty default queue and then getting twice returns exactly those two messages
in FIFO order. -/
theorem putGet_fifo_witness :
    ∃ (ms : List Message) (s' : MockMQServer),
      putSeq sampleServer "DEV.QUEUE.1"
          [("a", {}, ⟨0, "e"⟩), ("b", {}, ⟨1, "e"⟩)] = (ms.map Except.ok, s') ∧
      ms.length = 2 ∧
      ms.map Message.data = ["a", "b"] ∧
      (getSeq s' "DEV.QUEUE.1" ms.length).1 = ms.map (fun m => Except.ok (some m)) :=
  putGet_fifo sampleServer "DEV.QUEUE.1" sampleQueue
    [("a", {}, ⟨0, "e"⟩), ("b", {}, ⟨1, "e"⟩)] (by decide) (by decide) (by decide)

/-- C9 witness: clearing the two-message queue `Q1` of a concrete server
returns cleared count 2 and leaves an empty queue with its counters intact. -/
theorem clearQueue_spec_witness :
    (clearQueue busyServer "Q1").1 = .ok 2 ∧
    mapGet (clearQueue busyServer "Q1").2.queues "Q1" =
      some { busyQueue with messages := [] } :=
  ⟨(clearQueue_spec busyServer "Q1" busyQueue (by decide)).1, by decide⟩

end MockMQ

namespace MQHandler

/-- C10: in the module's actual environment (the identifier `Q` is never
imported or defined), `evaluatePredicate` raises a ReferenceError for every
request and predicate, `processResponse` does likewise for every response, a
stub with a non-empty predicate list can therefore never match
(`matchesPredicate` propagates the error instead of returning a match), and
`processMessage` propagates an error — never a stub response and never the
default no-match response — whenever the configuration has any stub at all. -/
theorem qUndefined_errors (regexTest : String → String → Bool) :
    (∀ (request : JsValue) (predicate : Predicate),
       evaluatePredicate (mkHandlerEnv regexTest) request predicate =
         .error .referenceErrorQ) ∧
    (∀ (response : Option JsValue) (request : JsValue),
       processResponse (mkHandlerEnv regexTest) response request =
         .error .referenceErrorQ) ∧
    (∀ (request : JsValue) (ps : List Predicate), ps ≠ [] →
       matchesPredicate (mkHandlerEnv regexTest) request (some ps) =
         .error .referenceErrorQ) ∧
    (∀ (clock : JsClock) (message : HandlerMessage) (imposterConfig : ImposterConfig)
       (stubs : List Stub), imposterConfig.stubs = some stubs → stubs ≠ [] →
       processMessage (mkHandlerEnv regexTest) clock message imposterConfig =
         .error .referenceErrorQ) := by
  refine ⟨fun request predicate => rfl, fun response request => rfl, ?_, ?_⟩
  · intro request ps hne
    cases ps with
    | nil => exact absurd rfl hne
    | cons p rest => rfl
  · intro clock message imposterConfig stubs hstubs hne
    rcases imposterConfig with ⟨stubsField⟩
    simp only at hstubs
    subst hstubs
    cases stubs with
    | nil => exact absurd rfl hne
    | cons stub rest =>
      rcases stub with ⟨preds, resps⟩
      rcases preds with _ | ps
      · rfl
      · rcases ps with _ | ⟨p, ps'⟩ <;> rfl

/-- C10 witness: the error surfaces on concrete inputs — a single
equals-predicate, its one-element predicate list, and a one-stub
configuration. -/
theorem qUndefined_errors_witness :
    evaluatePredicate (mkHandlerEnv fun _ _ => false) (.obj [])
      { equals := some [("body", .str "x")] } = .error .referenceErrorQ ∧
    matchesPredicate (mkHandlerEnv fun _ _ => false) (.obj [])
      (some [{ equals := some [("body", .str "x")] }]) = .error .referenceErrorQ ∧
    processMessage (mkHandlerEnv fun _ _ => false) ⟨0, "e", 0⟩ sampleHandlerMessage
      sampleImposterConfig = .error .referenceErrorQ :=
  ⟨(qUndefined_errors fun _ _ => false).1 (.obj []) { equals := some [("body", .str "x")] },
   (qUndefined_errors fun _ _ => false).2.2.1 (.obj [])
     [{ equals := some [("body", .str "x")] }] (List.cons_ne_nil _ _),
   (qUndefined_errors fun _ _ => false).2.2.2 ⟨0, "e", 0⟩ sampleHandlerMessage
     sampleImposterConfig [sampleStub] rfl (List.cons_ne_nil _ _)⟩

/-- C7 (code bug evidence): on the specification's own example — a first stub
whose `contains` predicate matches the inbound `GET_PRODUCT` message —
`processMessage` does not return that stub's response (nor any response): it
raises the ReferenceError coming from the unbound `Q`, even though the
predicate itself, evaluated in an environment where `Q` exists, accepts the
request.  The intended strictly-sequential first-match semantics is therefore
unreachable as shipped. -/
theorem firstMatch_throws_referenceError :
    processMessage (mkHandlerEnv fun _ _ => false) ⟨0, "e", 0⟩ getProductMessage
      getProductConfig = .error .referenceErrorQ ∧
    evaluatePredicate (mkHandlerEnv fun _ _ => false)
      (createRequestFromMessage ⟨0, "e", 0⟩ getProductMessage)
      { contains := some [("body", "GET_PRODUCT")] } = .error .referenceErrorQ ∧
    evaluatePredicate { hasQ := true, regexTest := fun _ _ => false }
      (createRequestFromMessage ⟨0, "e", 0⟩ getProductMessage)
      { contains := some [("body", "GET_PRODUCT")] } = .ok true :=
  ⟨rfl, rfl, rfl⟩

end MQHandler

namespace MQConfig

theorem validateStub_notArray (stub : StubCfg) (stubIndex : Nat)
    (h : stub.responses = some Arrayish.notArray) :
    validateStub stub stubIndex = .error .forEachNotFunction := by
  unfold validateStub
  rw [h]

theorem validateStub_shaped (stub : StubCfg) (stubIndex : Nat)
    (h : stub.responses ≠ some Arrayish.notArray) :
    ∃ x, validateStub stub stubIndex = .ok x ∧
      ∀ e ∈ stubPredicateErrors stub stubIndex, e ∈ x := by
  rcases hr : stub.responses with _ | a
  · exact ⟨_, by unfold validateStub; rw [hr],
      fun e he => List.mem_append.mpr (Or.inr he)⟩
  · cases a with
    | notArray => exact absurd hr h
    | arr rs =>
      exact ⟨_, by unfold validateStub; rw [hr],
        fun e he => List.mem_append.mpr (Or.inl (List.mem_append.mpr (Or.inr he)))⟩

theorem validateStubs_ok (l : List (Nat × StubCfg))
    (hshaped : ∀ p ∈ l, (p : Nat × StubCfg).2.responses ≠ some Arrayish.notArray) :
    ∃ errs, validateStubs l = .ok errs ∧
      ∀ p ∈ l, ∀ x, validateStub (p : Nat × StubCfg).2 p.1 = .ok x →
        ∀ e ∈ x, e ∈ errs := by
  induction l with
  | nil => exact ⟨[], rfl, by simp⟩
  | cons p rest ih =>
    obtain ⟨x, hx, -⟩ :=
      validateStub_shaped p.2 p.1 (hshaped p (List.mem_cons_self _ _))
    obtain ⟨more, hmore, hcover⟩ :=
      ih (fun q hq => hshaped q (List.mem_cons_of_mem _ hq))
    refine ⟨x ++ more, ?_, ?_⟩
    · simp only [validateStubs, hx, hmore]
    · intro q hq y hy e he
      rcases List.mem_cons.mp hq with rfl | hq'
      · rw [hx] at hy
        cases hy
        exact List.mem_append.mpr (Or.inl he)
      · exact List.mem_append.mpr (Or.inr (hcover q hq' y hy e he))

/-- C8 counterexample: the key `or` is not one of equals / contains / matches
/ exists, yet an otherwise valid configuration whose stub predicate uses it
passes validation with no error at all — the code's `validPredicateTypes`
also admits `not`, `or` and `and`. -/
theorem orPredicateKey_accepted :
    ("or" ∉ (["equals", "contains", "matches", "exists"] : List String)) ∧
    validationErrors orPredicateConfig = .ok [] ∧
    validateConfig orPredicateConfig = .ok () :=
  ⟨by decide, rfl, rfl⟩

/-- C8 (amended): for every imposter configuration whose stubs keep
`responses`, when present, an array, and which contains a stub predicate
whose key is not one of equals, contains, matches, exists, not, or, and:
configuration validation records a per-field error message naming the stub
index, predicate index and offending key in the aggregated error list, and
fails by throwing the `bad request` object carrying the whole list, aborting
imposter creation entirely.  (A truthy non-array `responses` value instead
aborts validation with the TypeError from `stub.responses.forEach`, before
the aggregate is thrown.) -/
theorem unknownPredicateKey_rejected (c : ImposterConfig)
    (stubs : List StubCfg) (i : Nat) (stub : StubCfg)
    (preds : List (List (String × JsValue))) (j : Nat) (pred : List (String × JsValue))
    (k : String)
    (hstubs : c.stubs = some (.arr stubs))
    (hstub : stubs[i]? = some stub)
    (hpreds : stub.predicates = some (.arr preds))
    (hpred : preds[j]? = some pred)
    (hk : k ∈ pred.map Prod.fst)
    (hinvalid : k ∉ validPredicateTypes)
    (hshaped : ∀ st ∈ stubs, (st : StubCfg).responses ≠ some Arrayish.notArray) :
    ∃ errors, validationErrors c = .ok errors ∧
      s!"Stub {i} predicate {j} contains invalid predicate type: {k}" ∈ errors ∧
      validateConfig c = .error (.badRequest
        { code := "bad request", message := "MQ imposter validation failed",
          errors := errors }) := by
  have hmsg : s!"Stub {i} predicate {j} contains invalid predicate type: {k}" ∈
      stubPredicateErrors stub i := by
    unfold stubPredicateErrors
    rw [hpreds]
    refine List.mem_flatMap.mpr ⟨(j, pred), List.mem_enum_iff_getElem?.mpr hpred, ?_⟩
    unfold validatePredicate
    refine List.mem_append.mpr (Or.inr ?_)
    refine List.mem_flatMap.mpr ⟨k, hk, ?_⟩
    simp [hinvalid]
  have hshaped' : ∀ p ∈ stubs.enum,
      (p : Nat × StubCfg).2.responses ≠ some Arrayish.notArray := by
    intro p hp
    have hpm : stubs[p.1]? = some p.2 := List.mem_enum_iff_getElem?.mp hp
    exact hshaped p.2 (List.getElem?_mem hpm)
  obtain ⟨stubErrs, hfold, hcover⟩ := validateStubs_ok stubs.enum hshaped'
  have hstubmem : (i, stub) ∈ stubs.enum := List.mem_enum_iff_getElem?.mpr hstub
  obtain ⟨x, hxok, hxsub⟩ :=
    validateStub_shaped stub i (hshaped stub (List.getElem?_mem hstub))
  have hmemerrs : s!"Stub {i} predicate {j} contains invalid predicate type: {k}" ∈
      stubErrs :=
    hcover (i, stub) hstubmem x hxok _ (hxsub _ hmsg)
  have hVE : validationErrors c = .ok (baseConfigErrors c ++ stubErrs) := by
    unfold validationErrors
    simp only [hstubs]
    rw [hfold]
  have hmem : s!"Stub {i} predicate {j} contains invalid predicate type: {k}" ∈
      baseConfigErrors c ++ stubErrs := List.mem_append.mpr (Or.inr hmemerrs)
  have hpos : 0 < (baseConfigErrors c ++ stubErrs).length :=
    List.length_pos.mpr (List.ne_nil_of_mem hmem)
  refine ⟨baseConfigErrors c ++ stubErrs, hVE, hmem, ?_⟩
  unfold validateConfig
  simp only [hVE, gt_iff_lt, if_pos hpos]

/-- C8 witness: the unknown key `foo` at stub 0, predicate 0 of a concrete
well-shaped configuration produces the expected per-field message in the
aggregated list and makes validation throw the `bad request` aggregate. -/
theorem unknownPredicateKey_rejected_witness :
    ∃ errors, validationErrors fooPredicateConfig = .ok errors ∧
      "Stub 0 predicate 0 contains invalid predicate type: foo" ∈ errors ∧
      validateConfig fooPredicateConfig = .error (.badRequest
        { code := "bad request", message := "MQ imposter validation failed",
          errors := errors }) :=
  unknownPredicateKey_rejected fooPredicateConfig [fooStub] 0 fooStub
    [[("foo", JsValue.arr [])]] 0 [("foo", JsValue.arr [])] "foo"
    rfl rfl rfl rfl (by decide) (by decide)
    (by
      intro st hst
      rw [List.mem_singleton] at hst
      subst hst
      simp [fooStub])

end MQConfig
